import Mathlib

/-!
Verification of the rxbanish core (src/main.rs): the visibility state
machine, ignored-modifier mask composition, device-subscription event-code
computation, and the extension-negotiation error policy, shallowly embedded
as pure Lean functions over Nat (machine integers modelled with explicit
`% 2^w` where overflow matters).
-/

namespace Rxbanish

/-! ### KeyButMask bit constants (xcb `x::KeyButMask`) -/

def SHIFT : Nat := 0x1
def LOCK : Nat := 0x2
def CONTROL : Nat := 0x4
def MOD1 : Nat := 0x8
def MOD2 : Nat := 0x10
def MOD3 : Nat := 0x20
def MOD4 : Nat := 0x40
def MOD5 : Nat := 0x80
def BUTTON1 : Nat := 0x100
def BUTTON2 : Nat := 0x200
def BUTTON3 : Nat := 0x400
def BUTTON4 : Nat := 0x800
def BUTTON5 : Nat := 0x1000

/-- All bits that are valid in a `KeyButMask`; `from_bits_truncate` keeps
exactly these. -/
def KEYBUTMASK_ALL : Nat :=
  SHIFT ||| LOCK ||| CONTROL ||| MOD1 ||| MOD2 ||| MOD3 ||| MOD4 ||| MOD5 |||
  BUTTON1 ||| BUTTON2 ||| BUTTON3 ||| BUTTON4 ||| BUTTON5

/-- The mouse-button bits of `KeyButMask`. -/
def BUTTON_BITS : Nat := BUTTON1 ||| BUTTON2 ||| BUTTON3 ||| BUTTON4 ||| BUTTON5

/-- `KeyButMask::from_bits_truncate`: keep only the valid bits. -/
def from_bits_truncate (n : Nat) : Nat := n &&& KEYBUTMASK_ALL

/-- `Mod` (src/main.rs lines 33-52): the clap-facing modifier names.
`Shift`..`Mod4` are the individually named modifiers; `All` is their union. -/
inductive Mod
  | Shift | Caps | Ctrl | Mod1 | Mod2 | Mod3 | Mod4 | All
deriving DecidableEq, Repr

/-- The `u32` discriminant of each `Mod` variant (`value as u32`). -/
def modBits : Mod → Nat
  | .Shift => SHIFT
  | .Caps => LOCK
  | .Ctrl => CONTROL
  | .Mod1 => MOD1
  | .Mod2 => MOD2
  | .Mod3 => MOD3
  | .Mod4 => MOD4
  | .All => SHIFT ||| LOCK ||| CONTROL ||| MOD1 ||| MOD2 ||| MOD3 ||| MOD4

/-- `impl From<Mod> for KeyButMask` (lines 56-60):
`KeyButMask::from_bits_truncate(value as u32)`. -/
def modMask (m : Mod) : Nat := from_bits_truncate (modBits m)

/-- `ignored_mods` computation in `main` (lines 64-67):
`KeyButMask::from_bits_truncate(args.ignore_mod.into_iter().fold(0, |a, b| a | b as u32))`. -/
def ignored_mods (l : List Mod) : Nat :=
  from_bits_truncate (l.foldl (fun a b => a ||| modBits b) 0)

/-! ### The visibility state machine (`main` loop, lines 101-156) -/

/-- `State` (line 159): pointer visibility. -/
inductive State
  | Hidden | Shown
deriving DecidableEq, Repr

/-- `xinput::DeviceChange` variants. -/
inductive DeviceChange
  | Added | Removed | Enabled | Disabled | Unrecoverable | ControlChanged
deriving DecidableEq, Repr

/-- The events the main loop distinguishes.  A device key-release carries its
`state()` modifier bits; a presence notification carries `devchange()` and
`device_id()`. `other` stands for the final catch-all arm. -/
inductive XEvent
  | rawMotion
  | rawButtonPress
  | deviceValuator
  | deviceMotionNotify
  | deviceButtonPress
  | deviceButtonRelease
  | deviceKeyRelease (modState : Nat)
  | devicePresenceNotify (devchange : DeviceChange) (device_id : Nat)
  | mappingNotify
  | other
deriving DecidableEq, Repr

/-- `KeyButMask::intersects`: the two masks share a bit. -/
def intersects (a b : Nat) : Bool := a &&& b != 0

/-- The `target_state` computed by the big `match` in the main loop
(lines 105-142), as a pure function of the ignored mask, current state and
event. -/
def targetState (ig : Nat) (s : State) : XEvent → State
  | .rawMotion => .Shown
  | .rawButtonPress => .Shown
  | .deviceValuator => .Shown
  | .deviceMotionNotify => .Shown
  | .deviceButtonPress => .Shown
  | .deviceButtonRelease => .Shown
  | .deviceKeyRelease m => if intersects m ig then s else .Hidden
  | .devicePresenceNotify _ _ => s
  | .mappingNotify => s
  | .other => s

/-- The device ids for which `snoop_device` is invoked while handling an
event: only a presence notification with `devchange() == Enabled` calls it
(lines 125-130). -/
def snoopCalls : XEvent → List Nat
  | .devicePresenceNotify ch d => if ch = .Enabled then [d] else []
  | _ => []

/-- The two cursor commands (`hide_pointer` / `show_pointer`). -/
inductive Cmd
  | hidePointer | showPointer
deriving DecidableEq, Repr

/-- The state a command puts the cursor in. -/
def cmdState : Cmd → State
  | .hidePointer => .Hidden
  | .showPointer => .Shown

/-- The `match (state, target_state)` at the bottom of the loop
(lines 143-152): which command, if any, one iteration issues. -/
def emit (s t : State) : Option Cmd :=
  match s, t with
  | .Shown, .Hidden => some .hidePointer
  | .Hidden, .Shown => some .showPointer
  | _, _ => none

/-- The observable outcome of one loop iteration: the new state, the cursor
command issued (if any) and the `snoop_device` invocations made. -/
structure StepOut where
  state : State
  cmd : Option Cmd
  snoops : List Nat
deriving DecidableEq, Repr

/-- One iteration of the main loop on one event. -/
def step (ig : Nat) (s : State) (e : XEvent) : StepOut :=
  let t := targetState ig s e
  { state := t, cmd := emit s t, snoops := snoopCalls e }

/-- Run the main loop over a list of events, collecting the cursor-command
trace in order. -/
def run (ig : Nat) (s : State) : List XEvent → State × List Cmd
  | [] => (s, [])
  | e :: es =>
    let o := step ig s e
    let r := run ig o.state es
    (r.1, o.cmd.toList ++ r.2)

/-! ### Device subscription (`snoop_device`, lines 220-280) -/

/-- `xinput::InputClass` variants. -/
inductive InputClass
  | Key | Button | Valuator | Feedback | Proximity | Focus | OtherClass
deriving DecidableEq, Repr

/-- Per-class metadata read from the `OpenDevice` reply: the class kind and
its `event_type_base()` (a `u8`, modelled as a Nat below `2^8`). -/
structure ClassInfo where
  class_id : InputClass
  event_type_base : Nat
deriving DecidableEq, Repr

/-- `make_event_code` (lines 282-284):
`u32::from(device_id) << 8 | u32::from(event_type)`. -/
def make_event_code (device_id event_type : Nat) : Nat :=
  (device_id <<< 8) ||| event_type

/-- The event codes one input class contributes in `snoop_device`'s loop
(lines 233-266).  `u8` addition `event_type_base() + 1` is modelled as
`(… + 1) % 256`. -/
def classCodes (rawmotion : Bool) (device_id : Nat) (c : ClassInfo) : List Nat :=
  match c.class_id with
  | .Key => [make_event_code device_id ((c.event_type_base + 1) % 256)]
  | .Valuator =>
    if rawmotion then []
    else [make_event_code device_id c.event_type_base]
  | .Button =>
    if rawmotion then []
    else [make_event_code device_id c.event_type_base,
          make_event_code device_id ((c.event_type_base + 1) % 256)]
  | _ => []

/-- The full `event_list` built by `snoop_device` over the device's class
list, in push order. -/
def snoop_device_event_list (rawmotion : Bool) (device_id : Nat)
    (classes : List ClassInfo) : List Nat :=
  classes.foldl (fun acc c => acc ++ classCodes rawmotion device_id c) []

/-! ### Extension negotiation (`main` lines 89-96 and `snoop_xinput`
lines 161-185), with the protocol replies abstracted as parameters -/

/-- The XFixes version gate in `main` (lines 89-96): given the major version
reported by the `xfixes::QueryVersion` reply, `bail!` exactly when it is
below 4. -/
def xfixesVersionCheck (major : Nat) : Except String Unit :=
  if major < 4 then Except.error "No compatible Xfixes version available"
  else Except.ok ()

/-- The `rawmotion` flag computed by `snoop_xinput` (lines 161-185):
`false` initially, set to `true` exactly when the `XiQueryVersion` exchange
returned `Ok`; the query's failure is never propagated. -/
def snoop_xinput_rawmotion (xiQueryOk : Bool) : Bool :=
  if xiQueryOk then true else false

/-- The negotiation sequence in `main`: the XFixes gate followed by
`snoop_xinput`, returning the raw-motion capability flag. -/
def negotiate (xfixesMajor : Nat) (xiQueryOk : Bool) : Except String Bool :=
  match xfixesVersionCheck xfixesMajor with
  | .error e => .error e
  | .ok _ => .ok (snoop_xinput_rawmotion xiQueryOk)

/-! ### Auxiliary specification-side definitions -/

/-- A device key-release event whose modifier state does not intersect the
ignored mask (the hide-inducing events of §8 of the spec). -/
def isQuietKeyRelease (ig : Nat) : XEvent → Bool
  | .deviceKeyRelease m => !intersects m ig
  | _ => false

/-- A command trace `cs` is well-formed from state `s` to state `s'` when
each command switches to a state different from the one before it, and the
final state is the state after the last command (or `s` if there is none). -/
def traceOK (s : State) : List Cmd → State → Prop
  | [], s' => s' = s
  | c :: cs, s' => cmdState c ≠ s ∧ traceOK (cmdState c) cs s'

/-! ### Helper lemmas -/

lemma emit_none_iff : ∀ s t : State, emit s t = none ↔ t = s := by
  intro s t; cases s <;> cases t <;> simp [emit]

lemma emit_some_spec :
    ∀ (s t : State) (c : Cmd), emit s t = some c → cmdState c = t ∧ t ≠ s := by
  intro s t c; cases s <;> cases t <;> cases c <;> simp [emit, cmdState]

lemma emit_self (s : State) : emit s s = none := by cases s <;> rfl

lemma run_traceOK (ig : Nat) (es : List XEvent) :
    ∀ s : State, traceOK s (run ig s es).2 (run ig s es).1 := by
  induction es with
  | nil => intro s; simp [run, traceOK]
  | cons e es ih =>
    intro s
    rcases h : emit s (targetState ig s e) with _ | c
    · have ht := (emit_none_iff s _).1 h
      simp only [run, step, h, Option.toList_none, List.nil_append]
      rw [ht]
      exact ih s
    · have hc := emit_some_spec s _ c h
      simp only [run, step, h, Option.toList_some, List.cons_append,
        List.nil_append]
      exact ⟨hc.1 ▸ hc.2, by rw [hc.1]; exact ih _⟩

lemma traceOK_chain :
    ∀ (cs : List Cmd) (s s' : State), traceOK s cs s' →
      List.Chain' (fun a b => a ≠ b) cs := by
  intro cs
  induction cs with
  | nil => intro s s' _; exact List.chain'_nil
  | cons c cs ih =>
    intro s s' h
    cases cs with
    | nil => simp
    | cons c2 cs2 =>
      rcases h with ⟨_, h2, htail⟩
      refine List.chain'_cons.2 ⟨?_, ih (cmdState c) s' ⟨h2, htail⟩⟩
      intro heq
      exact h2 (by rw [heq])

lemma traceOK_last :
    ∀ (cs : List Cmd) (s s' : State), traceOK s cs s' →
      (match cs.getLast? with
       | none => s' = s
       | some c => cmdState c = s') := by
  intro cs
  induction cs with
  | nil => intro s s' h; simpa [traceOK] using h
  | cons c cs ih =>
    intro s s' h
    cases cs with
    | nil =>
      simpa [traceOK, List.getLast?] using h.2.symm
    | cons c2 cs2 =>
      have := ih (cmdState c) s' h.2
      simpa [List.getLast?_cons_cons] using this

lemma run_append (ig : Nat) (es1 es2 : List XEvent) (s : State) :
    run ig s (es1 ++ es2) =
      ((run ig (run ig s es1).1 es2).1,
       (run ig s es1).2 ++ (run ig (run ig s es1).1 es2).2) := by
  induction es1 generalizing s with
  | nil => simp [run]
  | cons e es ih => simp [run, ih, List.append_assoc]

lemma run_quiet_hidden (ig : Nat) :
    ∀ es : List XEvent, (∀ e ∈ es, isQuietKeyRelease ig e = true) →
      run ig State.Hidden es = (State.Hidden, []) := by
  intro es
  induction es with
  | nil => intro _; rfl
  | cons e es ih =>
    intro h
    have he := h e (by simp)
    cases e <;> simp [isQuietKeyRelease] at he
    case deviceKeyRelease m =>
      have : run ig State.Hidden es = (State.Hidden, []) :=
        ih fun x hx => h x (by simp [hx])
      simp [run, step, targetState, he, emit, snoopCalls, this]

/-! ### Claim theorems -/

/-- C1: the visibility state machine issues a cursor command only on a state
change — a hide command exactly when the state goes Shown to Hidden, a show
command exactly when it goes Hidden to Shown, and nothing when the desired
state equals the current one; hence for every event sequence starting from
`Shown` the command trace never has two consecutive equal commands, and after
each iteration the last issued command matches the current state. -/
theorem C1_state_machine_invariant (ig : Nat) (es : List XEvent) :
    (∀ (s : State) (e : XEvent),
      ((step ig s e).cmd = some Cmd.hidePointer ↔
        s = State.Shown ∧ targetState ig s e = State.Hidden)
      ∧ ((step ig s e).cmd = some Cmd.showPointer ↔
        s = State.Hidden ∧ targetState ig s e = State.Shown)
      ∧ (targetState ig s e = s → (step ig s e).cmd = none))
    ∧ List.Chain' (fun a b => a ≠ b) (run ig State.Shown es).2
    ∧ (match (run ig State.Shown es).2.getLast? with
       | none => (run ig State.Shown es).1 = State.Shown
       | some c => cmdState c = (run ig State.Shown es).1)
    ∧ (∀ es2 : List XEvent,
        run ig State.Shown (es ++ es2) =
          ((run ig (run ig State.Shown es).1 es2).1,
           (run ig State.Shown es).2 ++
             (run ig (run ig State.Shown es).1 es2).2)) := by
  refine ⟨?_, ?_, ?_, fun es2 => run_append ig es es2 State.Shown⟩
  · intro s e
    have h : ∀ s t : State,
        (emit s t = some Cmd.hidePointer ↔ s = State.Shown ∧ t = State.Hidden)
        ∧ (emit s t = some Cmd.showPointer ↔ s = State.Hidden ∧ t = State.Shown)
        ∧ (t = s → emit s t = none) := by
      intro s t
      cases s <;> cases t <;> simp [emit]
    simpa [step] using h s (targetState ig s e)
  · exact traceOK_chain _ _ _ (run_traceOK ig es State.Shown)
  · exact traceOK_last _ _ _ (run_traceOK ig es State.Shown)

/-- Witness for C1 at a concrete input: `mappingNotify` leaves the state
alone, so the step issues no command. -/
theorem C1_witness : (step 0 State.Shown XEvent.mappingNotify).cmd = none :=
  ((C1_state_machine_invariant 0 []).1 State.Shown XEvent.mappingNotify).2.2
    (by decide)

/-- C2: over any nonempty sequence of device key-release events whose
modifier state does not intersect the ignored mask, starting from `Shown`,
the first event issues the hide command and moves to `Hidden`, and the whole
run issues exactly one hide command and nothing else. -/
theorem C2_quiet_release_sequence (ig : Nat) (e : XEvent) (es : List XEvent)
    (h : ∀ x ∈ e :: es, isQuietKeyRelease ig x = true) :
    step ig State.Shown e =
      { state := State.Hidden, cmd := some Cmd.hidePointer, snoops := [] }
    ∧ run ig State.Shown (e :: es) = (State.Hidden, [Cmd.hidePointer]) := by
  have he := h e (by simp)
  cases e <;> simp [isQuietKeyRelease] at he
  case deviceKeyRelease m =>
    have hrest : run ig State.Hidden es = (State.Hidden, []) :=
      run_quiet_hidden ig es fun x hx => h x (by simp [hx])
    constructor
    · simp [step, targetState, he, emit, snoopCalls]
    · simp [run, step, targetState, he, emit, snoopCalls, hrest]

/-- Witness for C2: two quiet key-releases from `Shown` produce exactly one
hide command. -/
theorem C2_witness :
    run 1 State.Shown
      [XEvent.deviceKeyRelease 2, XEvent.deviceKeyRelease 0] =
      (State.Hidden, [Cmd.hidePointer]) :=
  (C2_quiet_release_sequence 1 (XEvent.deviceKeyRelease 2)
    [XEvent.deviceKeyRelease 0] (by decide)).2

/-- C3: a device key-release whose modifier state intersects the ignored
mask leaves the state unchanged and issues no command, from either state. -/
theorem C3_ignored_modifier_release (ig m : Nat) (s : State)
    (h : m &&& ig ≠ 0) :
    step ig s (XEvent.deviceKeyRelease m) =
      { state := s, cmd := none, snoops := [] } := by
  have hi : intersects m ig = true := by
    simp [intersects]
    exact h
  simp [step, targetState, hi, snoopCalls, emit_self]

/-- Witness for C3: shift-tap release with shift ignored, from `Shown`. -/
theorem C3_witness :
    step 1 State.Shown (XEvent.deviceKeyRelease 1) =
      { state := State.Shown, cmd := none, snoops := [] } :=
  C3_ignored_modifier_release 1 1 State.Shown (by decide)

/-- C5: per input class, `snoop_device` computes: Key → exactly the
key-release code (base + 1, as a `u8`); Valuator → nothing under raw motion,
exactly the base code otherwise; Button → nothing under raw motion, the
press (base) and release (base + 1) codes otherwise; all other class kinds →
nothing. -/
theorem C5_class_codes (rm : Bool) (d base : Nat) :
    classCodes rm d ⟨InputClass.Key, base⟩ =
      [make_event_code d ((base + 1) % 256)]
    ∧ classCodes true d ⟨InputClass.Valuator, base⟩ = []
    ∧ classCodes false d ⟨InputClass.Valuator, base⟩ =
      [make_event_code d base]
    ∧ classCodes true d ⟨InputClass.Button, base⟩ = []
    ∧ classCodes false d ⟨InputClass.Button, base⟩ =
      [make_event_code d base, make_event_code d ((base + 1) % 256)]
    ∧ classCodes rm d ⟨InputClass.Feedback, base⟩ = []
    ∧ classCodes rm d ⟨InputClass.Proximity, base⟩ = []
    ∧ classCodes rm d ⟨InputClass.Focus, base⟩ = []
    ∧ classCodes rm d ⟨InputClass.OtherClass, base⟩ = [] :=
  ⟨rfl, rfl, rfl, rfl, rfl, rfl, rfl, rfl, rfl⟩

/-- C7: a device-presence notification with change type Enabled invokes the
device subscriber for the carried device id exactly once, keeps the state
and issues no command; every other change type invokes nothing and changes
nothing. -/
theorem C7_presence_notify (ig : Nat) (s : State) (d : Nat) :
    step ig s (XEvent.devicePresenceNotify DeviceChange.Enabled d) =
      { state := s, cmd := none, snoops := [d] }
    ∧ step ig s (XEvent.devicePresenceNotify DeviceChange.Added d) =
      { state := s, cmd := none, snoops := [] }
    ∧ step ig s (XEvent.devicePresenceNotify DeviceChange.Removed d) =
      { state := s, cmd := none, snoops := [] }
    ∧ step ig s (XEvent.devicePresenceNotify DeviceChange.Disabled d) =
      { state := s, cmd := none, snoops := [] }
    ∧ step ig s (XEvent.devicePresenceNotify DeviceChange.Unrecoverable d) =
      { state := s, cmd := none, snoops := [] }
    ∧ step ig s (XEvent.devicePresenceNotify DeviceChange.ControlChanged d) =
      { state := s, cmd := none, snoops := [] } := by
  refine ⟨?_, ?_, ?_, ?_, ?_, ?_⟩ <;>
    simp [step, targetState, snoopCalls, emit_self]

/-- C9: the release event-type code is `base + 1` in 8-bit arithmetic; when
the declared base is at most 254 the addition does not wrap, so the Key and
Button release codes are literally `base + 1`. -/
theorem C9_release_code_no_overflow (rm : Bool) (d base : Nat)
    (h : base ≤ 254) :
    (base + 1) % 256 = base + 1
    ∧ classCodes rm d ⟨InputClass.Key, base⟩ =
      [make_event_code d (base + 1)]
    ∧ classCodes false d ⟨InputClass.Button, base⟩ =
      [make_event_code d base, make_event_code d (base + 1)] := by
  have hm : (base + 1) % 256 = base + 1 := Nat.mod_eq_of_lt (by omega)
  exact ⟨hm, by simp [classCodes, hm], by simp [classCodes, hm]⟩

/-- Witness for C9 at base 5. -/
theorem C9_witness :
    (5 + 1) % 256 = 5 + 1
    ∧ classCodes true 1 ⟨InputClass.Key, 5⟩ = [make_event_code 1 (5 + 1)]
    ∧ classCodes false 1 ⟨InputClass.Button, 5⟩ =
      [make_event_code 1 5, make_event_code 1 (5 + 1)] :=
  C9_release_code_no_overflow true 1 5 (by decide)

/-- C8: for 8-bit `d` and `t`, the computed event code is `d * 2^8 + t`:
it fits in 16 bits, its high 8 bits are `d`, its low 8 bits are `t`, and
the mapping is injective on 8-bit pairs. -/
theorem C8_make_event_code (d t : Nat) (hd : d < 256) (ht : t < 256) :
    make_event_code d t = d * 2 ^ 8 + t
    ∧ make_event_code d t < 2 ^ 16
    ∧ make_event_code d t / 2 ^ 8 = d
    ∧ make_event_code d t % 2 ^ 8 = t
    ∧ (∀ d' t', d' < 256 → t' < 256 →
        make_event_code d t = make_event_code d' t' → d = d' ∧ t = t') := by
  have e8 : (2 : Nat) ^ 8 = 256 := by norm_num
  have key : ∀ a b : Nat, b < 256 → make_event_code a b = a * 2 ^ 8 + b := by
    intro a b hb
    have hb' : b < 2 ^ 8 := by rw [e8]; exact hb
    have h1 : a <<< 8 = 2 ^ 8 * a := by rw [Nat.shiftLeft_eq]; ring
    have h2 : (2 : Nat) ^ 8 * a + b = 2 ^ 8 * a ||| b :=
      Nat.mul_add_lt_is_or hb' a
    unfold make_event_code
    rw [h1, ← h2]
    ring
  have hk := key d t ht
  have e16 : (2 : Nat) ^ 16 = 65536 := by norm_num
  refine ⟨hk, ?_, ?_, ?_, ?_⟩
  · rw [hk, e8, e16]; omega
  · rw [hk, e8]; omega
  · rw [hk, e8]; omega
  · intro d' t' hd' ht' heq
    rw [key d t ht, key d' t' ht', e8] at heq
    constructor <;> omega

/-- Witness for C8 at device 1, event type 2. -/
theorem C8_witness :
    make_event_code 1 2 = 1 * 2 ^ 8 + 2
    ∧ make_event_code 1 2 / 2 ^ 8 = 1
    ∧ make_event_code 1 2 % 2 ^ 8 = 2 :=
  ⟨(C8_make_event_code 1 2 (by decide) (by decide)).1,
   (C8_make_event_code 1 2 (by decide) (by decide)).2.2.1,
   (C8_make_event_code 1 2 (by decide) (by decide)).2.2.2.1⟩

/-- C6: the negotiation phase fails exactly when the XFixes reply reports a
major version below 4; when it does not fail, the XInput version-query
outcome is never an error but only decides the raw-motion flag, which is
`false` when the query failed. -/
theorem C6_extension_negotiation (maj : Nat) (xiOk : Bool) :
    ((∃ e, negotiate maj xiOk = Except.error e) ↔ maj < 4)
    ∧ (4 ≤ maj → negotiate maj xiOk = Except.ok xiOk)
    ∧ snoop_xinput_rawmotion false = false := by
  refine ⟨⟨?_, ?_⟩, ?_, rfl⟩
  · rintro ⟨e, he⟩
    by_contra hge
    simp [negotiate, xfixesVersionCheck, hge] at he
  · intro hlt
    exact ⟨"No compatible Xfixes version available",
      by simp [negotiate, xfixesVersionCheck, hlt]⟩
  · intro hge
    have hnot : ¬ maj < 4 := by omega
    cases xiOk <;>
      simp [negotiate, xfixesVersionCheck, snoop_xinput_rawmotion, hnot]

/-- Witness for C6: major version 4 with a failed XInput query proceeds in
legacy mode. -/
theorem C6_witness : negotiate 4 false = Except.ok false :=
  (C6_extension_negotiation 4 false).2.1 (by decide)

/-! ### Mask-algebra helper lemmas -/

lemma foldl_or_testBit (l : List Mod) (init k : Nat) :
    (l.foldl (fun a b => a ||| modBits b) init).testBit k =
      (init.testBit k || l.any fun b => (modBits b).testBit k) := by
  induction l generalizing init with
  | nil => simp
  | cons b l ih =>
    simp [List.foldl_cons, ih, Nat.testBit_or, List.any_cons, Bool.or_assoc]

lemma foldr_or_testBit (l : List Mod) (k : Nat) :
    (l.foldr (fun m acc => modMask m ||| acc) 0).testBit k =
      (l.any fun b => (modMask b).testBit k) := by
  induction l with
  | nil => simp
  | cons b l ih => simp [List.foldr_cons, Nat.testBit_or, ih]

lemma modBits_lt (b : Mod) : modBits b < 128 := by
  cases b <;> decide

lemma foldl_or_lt (l : List Mod) :
    ∀ init : Nat, init < 128 →
      l.foldl (fun a b => a ||| modBits b) init < 128 := by
  induction l with
  | nil => intro init h; simpa using h
  | cons b l ih =>
    intro init h
    simp only [List.foldl_cons]
    apply ih
    have h7 : (128 : Nat) = 2 ^ 7 := by norm_num
    rw [h7]
    exact Nat.or_lt_two_pow (h7 ▸ h) (h7 ▸ modBits_lt b)

lemma small_and_keybutmask : ∀ x : Nat, x < 128 → x &&& KEYBUTMASK_ALL = x := by
  decide

lemma small_and_buttons : ∀ x : Nat, x < 128 → x &&& BUTTON_BITS = 0 := by
  decide

lemma modMask_eq_modBits : ∀ m : Mod, modMask m = modBits m := by
  intro m; cases m <;> decide

lemma ignored_mods_testBit (l : List Mod) (k : Nat) :
    (ignored_mods l).testBit k = (l.any fun b => (modBits b).testBit k) := by
  unfold ignored_mods from_bits_truncate
  rw [small_and_keybutmask _ (foldl_or_lt l 0 (by decide))]
  simpa using foldl_or_testBit l 0 k

lemma any_perm {l l' : List Mod} (h : l.Perm l') (f : Mod → Bool) :
    l.any f = l'.any f := by
  apply Bool.coe_iff_coe.1
  simp only [List.any_eq_true]
  constructor
  · rintro ⟨x, hx, hfx⟩; exact ⟨x, h.mem_iff.1 hx, hfx⟩
  · rintro ⟨x, hx, hfx⟩; exact ⟨x, h.mem_iff.2 hx, hfx⟩

/-- C10: the startup mask equals the bitwise union of the listed modifiers'
masks; it is invariant under reordering and duplication of the list; the
empty list yields the empty mask, under which every device key-release,
whatever its modifier state, yields desired state `Hidden`. -/
theorem C10_fold_algebra :
    (∀ l : List Mod,
      ignored_mods l = l.foldr (fun m acc => modMask m ||| acc) 0)
    ∧ (∀ l l' : List Mod, l.Perm l' → ignored_mods l = ignored_mods l')
    ∧ (∀ l : List Mod, ignored_mods (l ++ l) = ignored_mods l)
    ∧ ignored_mods [] = 0
    ∧ (∀ (s : State) (m : Nat),
        targetState (ignored_mods []) s (XEvent.deviceKeyRelease m) =
          State.Hidden) := by
  refine ⟨?_, ?_, ?_, by decide, ?_⟩
  · intro l
    apply Nat.eq_of_testBit_eq
    intro k
    rw [ignored_mods_testBit, foldr_or_testBit]
    simp only [modMask_eq_modBits]
  · intro l l' hperm
    apply Nat.eq_of_testBit_eq
    intro k
    rw [ignored_mods_testBit, ignored_mods_testBit]
    exact any_perm hperm _
  · intro l
    apply Nat.eq_of_testBit_eq
    intro k
    rw [ignored_mods_testBit, ignored_mods_testBit, List.any_append,
      Bool.or_self]
  · intro s m
    have h0 : ignored_mods [] = 0 := by decide
    simp [h0, targetState, intersects]

/-- Witness for C10: swapping the two listed modifiers leaves the mask
unchanged. -/
theorem C10_witness :
    ignored_mods [Mod.Shift, Mod.Caps] = ignored_mods [Mod.Caps, Mod.Shift] :=
  C10_fold_algebra.2.1 _ _ (List.Perm.swap Mod.Caps Mod.Shift [])

/-- C4 counterexample: the code names seven individual modifiers (shift,
caps, ctrl, mod1, mod2, mod3, mod4), and the `all` mask is not the union of
any six of them — each such union is missing one bit. -/
theorem C4_counterexample :
    modMask Mod.All ≠
      (modMask Mod.Caps ||| modMask Mod.Ctrl ||| modMask Mod.Mod1 |||
       modMask Mod.Mod2 ||| modMask Mod.Mod3 ||| modMask Mod.Mod4)
    ∧ modMask Mod.All ≠
      (modMask Mod.Shift ||| modMask Mod.Ctrl ||| modMask Mod.Mod1 |||
       modMask Mod.Mod2 ||| modMask Mod.Mod3 ||| modMask Mod.Mod4)
    ∧ modMask Mod.All ≠
      (modMask Mod.Shift ||| modMask Mod.Caps ||| modMask Mod.Mod1 |||
       modMask Mod.Mod2 ||| modMask Mod.Mod3 ||| modMask Mod.Mod4)
    ∧ modMask Mod.All ≠
      (modMask Mod.Shift ||| modMask Mod.Caps ||| modMask Mod.Ctrl |||
       modMask Mod.Mod2 ||| modMask Mod.Mod3 ||| modMask Mod.Mod4)
    ∧ modMask Mod.All ≠
      (modMask Mod.Shift ||| modMask Mod.Caps ||| modMask Mod.Ctrl |||
       modMask Mod.Mod1 ||| modMask Mod.Mod3 ||| modMask Mod.Mod4)
    ∧ modMask Mod.All ≠
      (modMask Mod.Shift ||| modMask Mod.Caps ||| modMask Mod.Ctrl |||
       modMask Mod.Mod1 ||| modMask Mod.Mod2 ||| modMask Mod.Mod4)
    ∧ modMask Mod.All ≠
      (modMask Mod.Shift ||| modMask Mod.Caps ||| modMask Mod.Ctrl |||
       modMask Mod.Mod1 ||| modMask Mod.Mod2 ||| modMask Mod.Mod3) := by
  decide

/-- C4 (amended): selecting `all` yields a mask exactly equal to the union
of the seven individually named modifiers' masks, and this mask — like every
mask constructible from a list of modifier tokens — contains no mouse-button
bit. -/
theorem C4_all_mask (l : List Mod) :
    modMask Mod.All =
      (modMask Mod.Shift ||| modMask Mod.Caps ||| modMask Mod.Ctrl |||
       modMask Mod.Mod1 ||| modMask Mod.Mod2 ||| modMask Mod.Mod3 |||
       modMask Mod.Mod4)
    ∧ modMask Mod.All &&& BUTTON_BITS = 0
    ∧ ignored_mods l &&& BUTTON_BITS = 0 := by
  refine ⟨by decide, by decide, ?_⟩
  unfold ignored_mods from_bits_truncate
  have hl := foldl_or_lt l 0 (by decide)
  rw [small_and_keybutmask _ hl]
  exact small_and_buttons _ hl

end Rxbanish
